import Mathlib

/-!
# pipeline-backend: text operator and pipeline-mode service

A shallow embedding of

* `pkg/component/operator/text/v0/main.go`: `CleanData`, `cleanTextUsingRegex`,
  `cleanTextUsingSubstring` and `execution.Execute`;
* `pkg/service/mode.go`: `getModeByConnRscName`;
* `pkg/service/convert.go`: `recipeResourceNameToPermalink`;
* the functions of `chunk_text.go` that `main.go` calls and `chunk_text_test.go` tests
  (`Setting.SetDefault`, `getChunkPositions`, `chunkText`, `chunkMarkdown`). That file is
  not among the sources, so these follow the written specification.

Go strings are Lean `String`s, Go slices are `List`s (a `nil` slice and an empty slice are
both `[]`, except in `Setting`, where `nil` is `none`), Go `int` is `Int`, a Go `error` is
its message, and a Go panic is the `none` of an `Option`.
-/

namespace PipelineBackend

/-! ## Go standard library -/

/-- The two Go standard-library functions of `main.go` whose behaviour lies outside the
repository: `strings.ToLower`, and `regexp.MustCompile` together with `MatchString`.
`MustCompile pattern = none` stands for the panic on a pattern that does not parse,
`some m` for the compiled expression with `m text = re.MatchString(text)`. -/
structure GoLib where
  ToLower : String → String
  MustCompile : String → Option (String → Bool)

/-- Go `strings.Contains(s, substr)`: `substr` starts at some position of `s`. On valid
UTF-8 the occurrence of the bytes is the occurrence of the characters. -/
def Contains (s substr : String) : Bool :=
  s.data.tails.any (fun t => substr.data.isPrefixOf t)

/-- Go `strings.Split(s, sep)` for a one-character separator, on the characters of `s`. -/
def Split (sep : Char) : List Char → List (List Char)
  | [] => [[]]
  | c :: cs =>
    if c = sep then [] :: Split sep cs
    else
      match Split sep cs with
      | [] => [[c]]
      | p :: ps => (c :: p) :: ps

/-! ## Data cleansing (`main.go`, lines 58-172) -/

/-- The struct `DataCleaningSetting`. -/
structure DataCleaningSetting where
  CleanMethod : String
  ExcludePatterns : List String
  IncludePatterns : List String
  ExcludeSubstrs : List String
  IncludeSubstrs : List String
  CaseSensitive : Bool
deriving DecidableEq

/-- The struct `CleanDataInput`. -/
structure CleanDataInput where
  Texts : List String
  Setting : DataCleaningSetting
deriving DecidableEq

/-- The struct `CleanDataOutput`. -/
structure CleanDataOutput where
  CleanedTexts : List String
deriving DecidableEq

/-- The loop `for _, pattern := range settings.ExcludePatterns` of `cleanTextUsingRegex`:
the value of `include` after the loop (it starts as `true`), `none` when a pattern that
the loop reaches does not compile. -/
def regexExcludeLoop (lib : GoLib) (text : String) : List String → Option Bool
  | [] => some true
  | pattern :: rest =>
    match lib.MustCompile pattern with
    | none => none
    | some re => if re text then some false else regexExcludeLoop lib text rest

/-- The loop `for _, pattern := range settings.IncludePatterns` of `cleanTextUsingRegex`:
the value of `include` after the loop (it starts as `false`). -/
def regexIncludeLoop (lib : GoLib) (text : String) : List String → Option Bool
  | [] => some false
  | pattern :: rest =>
    match lib.MustCompile pattern with
    | none => none
    | some re => if re text then some true else regexIncludeLoop lib text rest

/-- One iteration of the outer loop of `cleanTextUsingRegex`: the final `include`. -/
def regexInclude (lib : GoLib) (settings : DataCleaningSetting) (text : String) :
    Option Bool :=
  match regexExcludeLoop lib text settings.ExcludePatterns with
  | none => none
  | some incl =>
    if incl && decide (settings.IncludePatterns.length > 0) then
      regexIncludeLoop lib text settings.IncludePatterns
    else some incl

/-- The outer loop of `cleanTextUsingRegex`, with `cleanedTexts` as accumulator. -/
def cleanTextUsingRegexLoop (lib : GoLib) (settings : DataCleaningSetting) :
    List String → List String → Option (List String)
  | [], cleanedTexts => some cleanedTexts
  | text :: rest, cleanedTexts =>
    match regexInclude lib settings text with
    | none => none
    | some incl =>
      if incl then cleanTextUsingRegexLoop lib settings rest (cleanedTexts ++ [text])
      else cleanTextUsingRegexLoop lib settings rest cleanedTexts

/-- The function `cleanTextUsingRegex`; `none` when `regexp.MustCompile` panics. -/
def cleanTextUsingRegex (lib : GoLib) (inputTexts : List String)
    (settings : DataCleaningSetting) : Option (List String) :=
  cleanTextUsingRegexLoop lib settings inputTexts []

/-- The loop `for _, substr := range settings.ExcludeSubstrs` of
`cleanTextUsingSubstring`: the value of `include` after the loop. -/
def substrExcludeLoop (lib : GoLib) (caseSensitive : Bool) (compareText : String) :
    List String → Bool
  | [] => true
  | substr :: rest =>
    let substr := if !caseSensitive then lib.ToLower substr else substr
    if Contains compareText substr then false
    else substrExcludeLoop lib caseSensitive compareText rest

/-- The loop `for _, substr := range settings.IncludeSubstrs` of
`cleanTextUsingSubstring`: the value of `include` after the loop. -/
def substrIncludeLoop (lib : GoLib) (caseSensitive : Bool) (compareText : String) :
    List String → Bool
  | [] => false
  | substr :: rest =>
    let substr := if !caseSensitive then lib.ToLower substr else substr
    if Contains compareText substr then true
    else substrIncludeLoop lib caseSensitive compareText rest

/-- One iteration of the outer loop of `cleanTextUsingSubstring`: the final `include`. -/
def substrInclude (lib : GoLib) (settings : DataCleaningSetting) (text : String) : Bool :=
  let compareText := if !settings.CaseSensitive then lib.ToLower text else text
  let incl := substrExcludeLoop lib settings.CaseSensitive compareText settings.ExcludeSubstrs
  if incl && decide (settings.IncludeSubstrs.length > 0) then
    substrIncludeLoop lib settings.CaseSensitive compareText settings.IncludeSubstrs
  else incl

/-- The outer loop of `cleanTextUsingSubstring`, with `cleanedTexts` as accumulator. -/
def cleanTextUsingSubstringLoop (lib : GoLib) (settings : DataCleaningSetting) :
    List String → List String → List String
  | [], cleanedTexts => cleanedTexts
  | text :: rest, cleanedTexts =>
    if substrInclude lib settings text then
      cleanTextUsingSubstringLoop lib settings rest (cleanedTexts ++ [text])
    else cleanTextUsingSubstringLoop lib settings rest cleanedTexts

/-- The function `cleanTextUsingSubstring`. -/
def cleanTextUsingSubstring (lib : GoLib) (inputTexts : List String)
    (settings : DataCleaningSetting) : List String :=
  cleanTextUsingSubstringLoop lib settings inputTexts []

/-- The function `CleanData`; `none` when `regexp.MustCompile` panics. -/
def CleanData (lib : GoLib) (input : CleanDataInput) : Option CleanDataOutput :=
  if input.Setting.CleanMethod = "Regex" then
    match cleanTextUsingRegex lib input.Texts input.Setting with
    | none => none
    | some cleanedTexts => some { CleanedTexts := cleanedTexts }
  else if input.Setting.CleanMethod = "Substring" then
    some { CleanedTexts := cleanTextUsingSubstring lib input.Texts input.Setting }
  else
    some { CleanedTexts := input.Texts }

/-- The membership test of the Substring method in the words of its description: the text
contains none of the exclude substrings and, when there are include substrings, at
least one of them; both sides are lower-cased unless the setting is case sensitive. -/
def substringMember (lib : GoLib) (settings : DataCleaningSetting) (text : String) : Bool :=
  let norm : String → String := fun s => if settings.CaseSensitive then s else lib.ToLower s
  settings.ExcludeSubstrs.all (fun e => !Contains (norm text) (norm e)) &&
    (settings.IncludeSubstrs.isEmpty ||
      settings.IncludeSubstrs.any (fun i => Contains (norm text) (norm i)))

/-- A library for evaluation: ASCII lower-casing, and a toy pattern language in which a
pattern containing `(` does not compile and any other pattern matches the texts that
contain it. -/
def asciiLib : GoLib where
  ToLower := fun s => ⟨s.data.map Char.toLower⟩
  MustCompile := fun p => if p.data.contains '(' then none else some (fun t => Contains t p)

/-! ## Chunking types

`Setting`, `Strategy`, `ChunkTextInput`, `TextChunk` and `ChunkTextOutput` are declared in
`chunk_text.go`; their fields are the ones `main.go` and `chunk_text_test.go` use. -/

/-- The struct `Setting`; a `nil` slice is `none`. -/
structure Setting where
  ChunkMethod : String
  ChunkSize : Int
  ChunkOverlap : Int
  ModelName : String
  AllowedSpecial : Option (List String)
  DisallowedSpecial : Option (List String)
  Separators : Option (List String)
deriving DecidableEq

/-- The struct `Strategy`. -/
structure Strategy where
  Setting : Setting
deriving DecidableEq

/-- The struct `ChunkTextInput`. -/
structure ChunkTextInput where
  Text : String
  Strategy : Strategy
deriving DecidableEq

/-- The struct `TextChunk`. -/
structure TextChunk where
  Text : String
  StartPosition : Int
  EndPosition : Int
  TokenCount : Int
deriving DecidableEq

/-- The struct `ChunkTextOutput`. -/
structure ChunkTextOutput where
  TextChunks : List TextChunk
  ChunkNum : Int
  TokenCount : Int
  ChunksTokenCount : Int
deriving DecidableEq

/-! ## Chunking (`chunk_text.go`)

`chunk_text.go` is not among the sources: `main.go` calls `chunkText` and
`chunkMarkdown`, and `chunk_text_test.go` tests them together with `Setting.SetDefault`
and `PositionCalculator.getChunkPositions`. The definitions of this section follow the
written specification of these functions, section by section. -/

/-- Modelled from the spec: `Setting.SetDefault` of `chunk_text.go` (section 4.1,
SettingResolver): each field at its zero value gets its default, independently of the
others. -/
def Setting.SetDefault (s : Setting) : Setting :=
  { ChunkMethod := s.ChunkMethod
    ChunkSize := if s.ChunkSize = 0 then 512 else s.ChunkSize
    ChunkOverlap := if s.ChunkOverlap = 0 then 100 else s.ChunkOverlap
    ModelName := if s.ModelName = "" then "gpt-3.5-turbo" else s.ModelName
    AllowedSpecial :=
      match s.AllowedSpecial with
      | none => some []
      | some l => some l
    DisallowedSpecial :=
      match s.DisallowedSpecial with
      | none => some ["all"]
      | some l => some l
    Separators :=
      match s.Separators with
      | none => some ["\n\n", "\n", " ", ""]
      | some l => some l }

/-- Modelled from the spec: the search of `PositionCalculator.getChunkPositions`
(section 4.6): the first index of `runes` at which `chunkRunes` occurs verbatim as a
contiguous run, scanning from the left. -/
def firstOccurrence (chunkRunes : List Char) : List Char → Option Nat
  | [] => if chunkRunes.isPrefixOf [] then some 0 else none
  | r :: rest =>
    if chunkRunes.isPrefixOf (r :: rest) then some 0
    else
      match firstOccurrence chunkRunes rest with
      | some i => some (i + 1)
      | none => none

/-- Modelled from the spec: `PositionCalculator.getChunkPositions` of `chunk_text.go`
(section 4.6): search `rawRunes[searchCursor:]`; a chunk found at relative index `i`
starts at `searchCursor + i`, and the result is `(0, 0)` when the chunk is not found.
An empty chunk has a zero-length span (section 4.5). For the end of a non-empty chunk the
sources do not agree: section 4.6 gives the exclusive end `start + len(chunkRunes)`,
section 3 leaves the end "exclusive-or-inclusive", and the span `[0, 11]` of section 8
and several expectations of `chunk_text_test.go` are the inclusive end
`start + len(chunkRunes) - 1`. The convention is therefore the parameter
`inclusiveEnd`. -/
def getChunkPositions (inclusiveEnd : Bool) (rawRunes chunkRunes : List Char)
    (searchCursor : Nat) : Nat × Nat :=
  match firstOccurrence chunkRunes (rawRunes.drop searchCursor) with
  | some i =>
    (searchCursor + i,
      if chunkRunes.length = 0 then searchCursor + i
      else if inclusiveEnd then searchCursor + i + chunkRunes.length - 1
      else searchCursor + i + chunkRunes.length)
  | none => (0, 0)

/-- Modelled from the spec: what the chunking functions of `chunk_text.go` delegate to and
the spec leaves to other components: the Tokenizer (section 4.2, `count` and
`encodeBoundaries`, failing for a model without encoding), the RecursiveSplitter
(section 4.4) and the split of a markdown text on its block boundaries (section 4.5);
and the convention for the end position of a chunk, which the spec does not settle. -/
structure Splitters where
  count : String → List String → List String → String → Except String Nat
  encodeBoundaries : String → String → Except String (List String)
  recursiveSplit : Setting → String → Except String (List String)
  markdownSections : String → List String
  inclusiveEnd : Bool

/-- Modelled from the spec: the windows of the TokenSplitter (section 4.3): a window of
`size` tokens slides over the tokens with stride `stride`, the last window is truncated
to the tokens that remain, and there is no window after the one that reaches the end.
`fuel` bounds the number of windows. -/
def tokenWindows (size stride : Nat) : Nat → List String → List (List String)
  | 0, _ => []
  | _, [] => []
  | fuel + 1, t :: ts =>
    if size ≥ (t :: ts).length then [t :: ts]
    else (t :: ts).take size :: tokenWindows size stride fuel ((t :: ts).drop stride)

/-- Modelled from the spec: the TokenSplitter (section 4.3) after its validation: encode
the text and join the tokens of each window. -/
def tokenSplit (sp : Splitters) (setting : Setting) (text : String) :
    Except String (List String) :=
  match sp.encodeBoundaries setting.ModelName text with
  | .error err => .error err
  | .ok tokens =>
    .ok ((tokenWindows setting.ChunkSize.toNat (setting.ChunkSize - setting.ChunkOverlap).toNat
      tokens.length tokens).map String.join)

/-- Modelled from the spec: the MarkdownSplitter (section 4.5): the sections of the text
are chunked one by one by the RecursiveSplitter with the same setting and the chunks
are concatenated in document order; the empty text gives exactly one empty chunk. -/
def markdownSplit (sp : Splitters) (setting : Setting) (text : String) :
    Except String (List String) :=
  if text = "" then .ok [""]
  else
    match (sp.markdownSections text).mapM (sp.recursiveSplit setting) with
    | .error err => .error err
    | .ok chunks => .ok chunks.flatten

/-- Modelled from the spec: the pass of the ChunkingOrchestrator over the chunks
(section 4.7): each chunk gets its own token count and its position from
`getChunkPositions`, and the cursor goes to the start of a chunk that was found. -/
def locateChunks (sp : Splitters) (setting : Setting) (rawRunes : List Char) :
    Nat → List String → Except String (List TextChunk)
  | _, [] => .ok []
  | cursor, chunk :: rest =>
    match sp.count setting.ModelName (setting.AllowedSpecial.getD [])
        (setting.DisallowedSpecial.getD []) chunk with
    | .error err => .error err
    | .ok n =>
      let pos := getChunkPositions sp.inclusiveEnd rawRunes chunk.data cursor
      let next :=
        if (firstOccurrence chunk.data (rawRunes.drop cursor)).isSome then pos.1 else cursor
      match locateChunks sp setting rawRunes next rest with
      | .error err => .error err
      | .ok chunks =>
        .ok ({ Text := chunk, StartPosition := pos.1, EndPosition := pos.2,
               TokenCount := n } :: chunks)

/-- The zero value of `ChunkTextOutput`. -/
def ChunkTextOutput.zero : ChunkTextOutput :=
  { TextChunks := [], ChunkNum := 0, TokenCount := 0, ChunksTokenCount := 0 }

/-- Modelled from the spec: the aggregation of the ChunkingOrchestrator (section 4.7): the
token count of the whole text, the chunks with their counts and positions, their number
and the sum of their counts. -/
def assemble (sp : Splitters) (setting : Setting) (text : String) (chunks : List String) :
    ChunkTextOutput × Option String :=
  match sp.count setting.ModelName (setting.AllowedSpecial.getD [])
      (setting.DisallowedSpecial.getD []) text with
  | .error err => (ChunkTextOutput.zero, some err)
  | .ok total =>
    match locateChunks sp setting text.data 0 chunks with
    | .error err => (ChunkTextOutput.zero, some err)
    | .ok textChunks =>
      ({ TextChunks := textChunks
         ChunkNum := textChunks.length
         TokenCount := total
         ChunksTokenCount := (textChunks.map (fun c => c.TokenCount)).sum }, none)

/-- Modelled from the spec: `chunkText` of `chunk_text.go` (sections 4.3, 4.4 and 4.7):
resolve the setting, split by `ChunkMethod` (the Token method after the validation
`ChunkOverlap < ChunkSize`), then aggregate. A failure returns the zero output. -/
def chunkText (sp : Splitters) (input : ChunkTextInput) : ChunkTextOutput × Option String :=
  let setting := input.Strategy.Setting.SetDefault
  let split : Except String (List String) :=
    if setting.ChunkMethod = "Token" then
      if setting.ChunkOverlap ≥ setting.ChunkSize then
        .error "ChunkOverlap must be less than ChunkSize when using Token method"
      else tokenSplit sp setting input.Text
    else if setting.ChunkMethod = "Recursive" then sp.recursiveSplit setting input.Text
    else if setting.ChunkMethod = "Markdown" then markdownSplit sp setting input.Text
    else .error ("unknown ChunkMethod: " ++ setting.ChunkMethod)
  match split with
  | .error err => (ChunkTextOutput.zero, some err)
  | .ok chunks => assemble sp setting input.Text chunks

/-- Modelled from the spec: `chunkMarkdown` of `chunk_text.go` (sections 4.5 and 4.7):
resolve the setting, split with the MarkdownSplitter, then aggregate. -/
def chunkMarkdown (sp : Splitters) (input : ChunkTextInput) :
    ChunkTextOutput × Option String :=
  let setting := input.Strategy.Setting.SetDefault
  match markdownSplit sp setting input.Text with
  | .error err => (ChunkTextOutput.zero, some err)
  | .ok chunks => assemble sp setting input.Text chunks

/-- Collaborators for evaluation: only "gpt-3.5-turbo" has an encoding, a token is a
character, the recursive splitter cuts into runs of `ChunkSize` characters, a markdown
text is a single section, and the end of a chunk is exclusive. -/
def charSplitters : Splitters where
  count := fun model _ _ text =>
    if model = "gpt-3.5-turbo" then .ok text.data.length else .error "UnsupportedModel"
  encodeBoundaries := fun model text =>
    if model = "gpt-3.5-turbo" then .ok (text.data.map (fun ch => String.mk [ch]))
    else .error "UnsupportedModel"
  recursiveSplit := fun setting text =>
    .ok ((tokenWindows setting.ChunkSize.toNat setting.ChunkSize.toNat text.data.length
      (text.data.map (fun ch => String.mk [ch]))).map String.join)
  markdownSections := fun text => [text]
  inclusiveEnd := false

/-! ## `Execute` (`main.go`, lines 174-238) -/

/-- The constant `taskChunkText`. -/
def taskChunkText : String := "TASK_CHUNK_TEXT"

/-- The constant `taskDataCleansing`. -/
def taskDataCleansing : String := "TASK_DATA_CLEANSING"

/-- What `Execute` calls outside `main.go`, over the type `Pb` of `*structpb.Struct`
values: `base.ConvertFromStructpb` at its two target types, `base.ConvertToStructpb` at
its two source types, and the two chunking functions of `chunk_text.go`, each returning
its Go result pair (the error is `none` for `nil`). -/
structure Callees (Pb : Type) where
  ConvertFromStructpbChunk : Pb → Except String ChunkTextInput
  ConvertFromStructpbClean : Pb → Except String CleanDataInput
  ConvertToStructpbChunk : ChunkTextOutput → Except String Pb
  ConvertToStructpbClean : CleanDataOutput → Except String Pb
  chunkMarkdown : ChunkTextInput → ChunkTextOutput × Option String
  chunkText : ChunkTextInput → ChunkTextOutput × Option String

/-- A `*base.Job` as `Execute` uses it: what `job.Input.Read(ctx)` returns, and the error
that `job.Output.Write(ctx, output)` returns (`none` for `nil`). -/
structure Job (Pb : Type) where
  Read : Except String Pb
  Write : Pb → Option String

/-- What `Execute` does that is visible from outside, tagged with the position of the job
in the list: a call `job.Error.Error(ctx, err)`, a call `job.Output.Write(ctx, output)`
with the error it returned, and the calls of the two chunking functions. -/
inductive Event (Pb : Type) where
  | Error (job : Nat) (err : String)
  | Write (job : Nat) (output : Pb) (err : Option String)
  | chunkMarkdown (job : Nat) (input : ChunkTextInput)
  | chunkText (job : Nat) (input : ChunkTextInput)
deriving DecidableEq

/-- The position of the job an event belongs to. -/
def Event.job {Pb : Type} : Event Pb → Nat
  | .Error j _ => j
  | .Write j _ _ => j
  | .chunkMarkdown j _ => j
  | .chunkText j _ => j

/-- The result of a call of `Execute`: it returned `err` after the events of `trace`, or it
panicked after them. -/
inductive Outcome (Pb : Type) where
  | returned (err : Option String) (trace : List (Event Pb))
  | panicked (trace : List (Event Pb))
deriving DecidableEq

/-- The tail shared by both tasks: `job.Output.Write(ctx, output)` and the report of its
error. -/
def writeOutput {Pb : Type} (idx : Nat) (job : Job Pb) (output : Pb) : List (Event Pb) :=
  match job.Write output with
  | some err => [.Write idx output (some err), .Error idx err]
  | none => [.Write idx output none]

/-- The rest of a `TASK_CHUNK_TEXT` iteration once the chunking function has returned
`r`: report its error, or convert its output and write it. -/
def afterChunk {Pb : Type} (c : Callees Pb) (idx : Nat) (job : Job Pb)
    (r : ChunkTextOutput × Option String) : List (Event Pb) :=
  match r.2 with
  | some err => [.Error idx err]
  | none =>
    match c.ConvertToStructpbChunk r.1 with
    | .error err => [.Error idx err]
    | .ok output => writeOutput idx job output

/-- One iteration of the loop of `Execute` on the job at position `idx`: the events of the
iteration, `none` when it panics. Every `continue` ends the iteration. -/
def ExecuteJob {Pb : Type} (lib : GoLib) (c : Callees Pb) (Task : String) (idx : Nat)
    (job : Job Pb) : Option (List (Event Pb)) :=
  match job.Read with
  | .error err => some [.Error idx err]
  | .ok input =>
    if Task = taskChunkText then
      match c.ConvertFromStructpbChunk input with
      | .error err => some [.Error idx err]
      | .ok inputStruct =>
        if inputStruct.Strategy.Setting.ChunkMethod = "Markdown" then
          some (.chunkMarkdown idx inputStruct :: afterChunk c idx job (c.chunkMarkdown inputStruct))
        else
          some (.chunkText idx inputStruct :: afterChunk c idx job (c.chunkText inputStruct))
    else if Task = taskDataCleansing then
      match c.ConvertFromStructpbClean input with
      | .error err => some [.Error idx err]
      | .ok cleanDataInput =>
        match CleanData lib cleanDataInput with
        | none => none
        | some cleanedDataOutput =>
          match c.ConvertToStructpbClean cleanedDataOutput with
          | .error err => some [.Error idx err]
          | .ok output => some (writeOutput idx job output)
    else
      some [.Error idx ("not supported task: " ++ Task)]

/-- The loop `for _, job := range jobs` of `Execute` from position `idx` on, after the
events of `trace`. -/
def ExecuteLoop {Pb : Type} (lib : GoLib) (c : Callees Pb) (Task : String) :
    Nat → List (Job Pb) → List (Event Pb) → Outcome Pb
  | _, [], trace => .returned none trace
  | idx, job :: rest, trace =>
    match ExecuteJob lib c Task idx job with
    | none => .panicked trace
    | some events => ExecuteLoop lib c Task (idx + 1) rest (trace ++ events)

/-- The method `execution.Execute`, for an execution whose task is `Task`. -/
def Execute {Pb : Type} (lib : GoLib) (c : Callees Pb) (Task : String)
    (jobs : List (Job Pb)) : Outcome Pb :=
  ExecuteLoop lib c Task 0 jobs []

/-- The events of the iteration on the job at position `idx`, none when it panics. -/
def jobEvents {Pb : Type} (lib : GoLib) (c : Callees Pb) (Task : String) (idx : Nat)
    (job : Job Pb) : List (Event Pb) :=
  (ExecuteJob lib c Task idx job).getD []

/-- The events of the iterations on `jobs`, the first of which is at position `idx`. -/
def traceFrom {Pb : Type} (lib : GoLib) (c : Callees Pb) (Task : String) :
    Nat → List (Job Pb) → List (Event Pb)
  | _, [] => []
  | idx, job :: rest => jobEvents lib c Task idx job ++ traceFrom lib c Task (idx + 1) rest

/-- The errors reported on the error handler of the job at position `idx`, in order. -/
def reportedErrors {Pb : Type} (idx : Nat) (trace : List (Event Pb)) : List String :=
  trace.filterMap (fun e =>
    match e with
    | .Error j err => if j = idx then some err else none
    | _ => none)

/-- The outputs written without error for the job at position `idx`, in order. -/
def writtenOutputs {Pb : Type} (idx : Nat) (trace : List (Event Pb)) : List Pb :=
  trace.filterMap (fun e =>
    match e with
    | .Write j output none => if j = idx then some output else none
    | _ => none)

/-- The steps of one job in the words of the contract: read the input, convert it, chunk
or cleanse, convert the result, write the output; the first failure ends them. The
value is the output written. `none` when cleansing panics. -/
def jobSteps {Pb : Type} (lib : GoLib) (c : Callees Pb) (Task : String) (job : Job Pb) :
    Option (Except String Pb) :=
  match job.Read with
  | .error err => some (.error err)
  | .ok input =>
    let processed : Option (Except String Pb) :=
      if Task = taskChunkText then
        match c.ConvertFromStructpbChunk input with
        | .error err => some (.error err)
        | .ok inputStruct =>
          let r := if inputStruct.Strategy.Setting.ChunkMethod = "Markdown"
            then c.chunkMarkdown inputStruct else c.chunkText inputStruct
          match r.2 with
          | some err => some (.error err)
          | none => some (c.ConvertToStructpbChunk r.1)
      else if Task = taskDataCleansing then
        match c.ConvertFromStructpbClean input with
        | .error err => some (.error err)
        | .ok cleanDataInput =>
          match CleanData lib cleanDataInput with
          | none => none
          | some cleaned => some (c.ConvertToStructpbClean cleaned)
      else some (.error ("not supported task: " ++ Task))
    match processed with
    | none => none
    | some (.error err) => some (.error err)
    | some (.ok output) =>
      match job.Write output with
      | some err => some (.error err)
      | none => some (.ok output)

/-- A stand-in for `structpb.Struct` for evaluation: the Go value it was made from. -/
inductive Struct where
  | chunkInput (v : ChunkTextInput)
  | cleanInput (v : CleanDataInput)
  | chunkOutput (v : ChunkTextOutput)
  | cleanOutput (v : CleanDataOutput)
deriving DecidableEq

/-- Callees for evaluation: a conversion from a `Struct` fails on a value of another
type, a conversion to a `Struct` never fails, and the chunking functions are the ones
above over `charSplitters`. -/
def testCallees : Callees Struct where
  ConvertFromStructpbChunk := fun v =>
    match v with
    | .chunkInput x => .ok x
    | _ => .error "cannot convert to ChunkTextInput"
  ConvertFromStructpbClean := fun v =>
    match v with
    | .cleanInput x => .ok x
    | _ => .error "cannot convert to CleanDataInput"
  ConvertToStructpbChunk := fun v => .ok (.chunkOutput v)
  ConvertToStructpbClean := fun v => .ok (.cleanOutput v)
  chunkMarkdown := chunkMarkdown charSplitters
  chunkText := chunkText charSplitters

/-! ## Pipeline mode (`pkg/service/mode.go`) -/

/-- The type `datamodel.PipelineMode`, with the three values of `pipelinePB.Pipeline_Mode` that
`mode.go` names. -/
inductive PipelineMode where
  | MODE_UNSPECIFIED
  | MODE_SYNC
  | MODE_ASYNC
deriving DecidableEq

/-- An `error` of `mode.go`: one returned by the connector service, or a gRPC
`status.Error(code, message)`. -/
inductive ServiceError where
  | rpc (message : String)
  | status (code : String) (message : String)
deriving DecidableEq

/-- The part of a source or destination connector definition that `mode.go` reads:
`GetId()` and `GetConnectorDefinition().GetConnectionType()`. The enumeration
`connectorPB.ConnectionType` is the type `CT`. -/
structure ConnectorDefinition (CT : Type) where
  Id : String
  ConnectionType : CT

/-- The four calls of `s.connectorServiceClient` in `mode.go`. A connector lookup gives
the resource name of the connector's definition, a definition lookup the definition. -/
structure ConnectorServiceClient (CT : Type) where
  GetSourceConnector : String → Except ServiceError String
  GetSourceConnectorDefinition : String → Except ServiceError (ConnectorDefinition CT)
  GetDestinationConnector : String → Except ServiceError String
  GetDestinationConnectorDefinition : String → Except ServiceError (ConnectorDefinition CT)

/-- The decision of `getModeByConnRscName` once the four lookups have succeeded
(`mode.go`, lines 45-57); `none` is the panic of an index out of range in
`strings.Split(id, "-")[1]`. `DIRECTNESS` is `ConnectionType_CONNECTION_TYPE_DIRECTNESS`. -/
def decideMode {CT : Type} [DecidableEq CT] (DIRECTNESS : CT)
    (srcDef dstDef : ConnectorDefinition CT) : Option (PipelineMode × Option ServiceError) :=
  if srcDef.ConnectionType = DIRECTNESS ∧ dstDef.ConnectionType = DIRECTNESS then
    match (Split '-' srcDef.Id.data).get? 1 with
    | none => none
    | some src =>
      match (Split '-' dstDef.Id.data).get? 1 with
      | none => none
      | some dst =>
        if src = dst then some (.MODE_SYNC, none)
        else some (.MODE_UNSPECIFIED, some (.status "InvalidArgument"
          "Source and destination connector definition id must be the same if they are both directness connection type"))
  else some (.MODE_ASYNC, none)

/-- The method `service.getModeByConnRscName`; the deadline of the context is not
modelled. -/
def getModeByConnRscName {CT : Type} [DecidableEq CT] (DIRECTNESS : CT)
    (client : ConnectorServiceClient CT) (srcConnRscName dstConnRscName : String) :
    Option (PipelineMode × Option ServiceError) :=
  match client.GetSourceConnector srcConnRscName with
  | .error err => some (.MODE_UNSPECIFIED, some err)
  | .ok srcConn =>
    match client.GetSourceConnectorDefinition srcConn with
    | .error err => some (.MODE_UNSPECIFIED, some err)
    | .ok srcDef =>
      match client.GetDestinationConnector dstConnRscName with
      | .error err => some (.MODE_UNSPECIFIED, some err)
      | .ok dstConn =>
        match client.GetDestinationConnectorDefinition dstConn with
        | .error err => some (.MODE_UNSPECIFIED, some err)
        | .ok dstDef => decideMode DIRECTNESS srcDef dstDef

/-- The connection types for evaluation. -/
inductive TestConnectionType where
  | UNSPECIFIED
  | DIRECTNESS
  | OPERATION
deriving DecidableEq

/-- A connector service for evaluation: every connector `c` has the definition named
`"def/" ++ c`, every source definition is directness with the id `srcId`, every
destination definition has the connection type `dstType` and the id `dstId`. -/
def testClient (srcId dstId : String) (dstType : TestConnectionType) :
    ConnectorServiceClient TestConnectionType where
  GetSourceConnector := fun name => .ok ("def/" ++ name)
  GetSourceConnectorDefinition := fun _ => .ok { Id := srcId, ConnectionType := .DIRECTNESS }
  GetDestinationConnector := fun name => .ok ("def/" ++ name)
  GetDestinationConnectorDefinition := fun _ => .ok { Id := dstId, ConnectionType := dstType }

/-! ## Recipe conversion (`pkg/service/convert.go`, lines 16-93) -/

/-- The fields of `datamodel.Recipe` that `convert.go` reads and writes. -/
structure Recipe where
  Source : String
  Destination : String
  ModelInstances : List String
deriving DecidableEq

/-- What `recipeResourceNameToPermalink` calls outside `convert.go`: the lookups of
`s.connectorServiceClient` and `s.modelServiceClient`, each giving the `GetUid()` of
what it found or the message of its error, and the helpers `GetResourceCollectionID`
and `GetResourceNameID` of the package `internal/resource`. -/
structure RecipeServices where
  GetSourceConnector : String → Except String String
  GetDestinationConnector : String → Except String String
  GetModelInstance : String → Except String String
  GetModel : String → Except String String
  GetResourceCollectionID : String → Except String String
  GetResourceNameID : String → Except String String

/-- Go `strings.TrimSuffix(s, suffix)`. -/
def TrimSuffix (s suffix : String) : String :=
  if suffix.data.isSuffixOf s.data then ⟨s.data.take (s.data.length - suffix.data.length)⟩
  else s

/-- The body of the loop over `recipe.ModelInstances` for one resource name: the permalink
stored at its index, or the error returned. -/
def modelInstancePermalink (sv : RecipeServices) (modelInstanceRscName : String) :
    Except String String :=
  match sv.GetModelInstance modelInstanceRscName with
  | .error err => .error ("[model-backend] " ++ err)
  | .ok modelInstUid =>
    match sv.GetResourceCollectionID modelInstanceRscName with
    | .error err => .error err
    | .ok modelInstColID =>
      match sv.GetResourceNameID modelInstanceRscName with
      | .error err => .error err
      | .ok modelInstID =>
        let modelRscName :=
          TrimSuffix modelInstanceRscName ("/" ++ modelInstColID ++ "/" ++ modelInstID)
        match sv.GetModel modelRscName with
        | .error err => .error ("[model-backend] " ++ err)
        | .ok modelUid =>
          match sv.GetResourceCollectionID modelRscName with
          | .error err => .error err
          | .ok modelColID =>
            .ok (modelColID ++ "/" ++ modelUid ++ "/" ++ modelInstColID ++ "/" ++ modelInstUid)

/-- The loop `for idx, modelInstanceRscName := range recipe.ModelInstances`: `done` holds
the entries already replaced, the list the entries still to visit; the result is the
slice when the loop ends or returns, with the error returned. -/
def modelInstancesLoop (sv : RecipeServices) : List String → List String →
    List String × Option String
  | done, [] => (done, none)
  | done, modelInstanceRscName :: rest =>
    match modelInstancePermalink sv modelInstanceRscName with
    | .error err => (done ++ modelInstanceRscName :: rest, some err)
    | .ok permalink => modelInstancesLoop sv (done ++ [permalink]) rest

/-- The method `service.recipeResourceNameToPermalink`: the recipe as the call leaves it,
and the error returned (`none` for `nil`). The deadline of the context is not
modelled. -/
def recipeResourceNameToPermalink (sv : RecipeServices) (recipe : Recipe) :
    Recipe × Option String :=
  match sv.GetSourceConnector recipe.Source with
  | .error err => (recipe, some ("[connector-backend] " ++ err))
  | .ok srcUid =>
    match sv.GetResourceCollectionID recipe.Source with
    | .error err => (recipe, some err)
    | .ok srcColID =>
      let recipe := { recipe with Source := srcColID ++ "/" ++ srcUid }
      match sv.GetDestinationConnector recipe.Destination with
      | .error err => (recipe, some ("[connector-backend] " ++ err))
      | .ok dstUid =>
        match sv.GetResourceCollectionID recipe.Destination with
        | .error err => (recipe, some err)
        | .ok dstColID =>
          let recipe := { recipe with Destination := dstColID ++ "/" ++ dstUid }
          let loop := modelInstancesLoop sv [] recipe.ModelInstances
          ({ recipe with ModelInstances := loop.1 }, loop.2)

/-- Services for evaluation: the connectors and models listed are found, with the uid
given; the collection id of a name is its segment before the last "/" and its id the
segment after it, and both fail on a name without "/". -/
def testServices (sources destinations instances models : List (String × String)) :
    RecipeServices where
  GetSourceConnector := fun name =>
    match sources.lookup name with
    | some uid => .ok uid
    | none => .error "source connector not found"
  GetDestinationConnector := fun name =>
    match destinations.lookup name with
    | some uid => .ok uid
    | none => .error "destination connector not found"
  GetModelInstance := fun name =>
    match instances.lookup name with
    | some uid => .ok uid
    | none => .error "model instance not found"
  GetModel := fun name =>
    match models.lookup name with
    | some uid => .ok uid
    | none => .error "model not found"
  GetResourceCollectionID := fun name =>
    match (Split '/' name.data).reverse with
    | _ :: col :: _ => .ok ⟨col⟩
    | _ => .error "no collection id"
  GetResourceNameID := fun name =>
    match (Split '/' name.data).reverse with
    | id :: _ :: _ => .ok ⟨id⟩
    | _ => .error "no resource id"

/-! ## Inputs for evaluation -/

/-- A cleansing setting with the given method and lists, case insensitive. -/
def testSetting (method : String) (excludePatterns excludeSubstrs includeSubstrs : List String) :
    DataCleaningSetting :=
  { CleanMethod := method, ExcludePatterns := excludePatterns, IncludePatterns := [],
    ExcludeSubstrs := excludeSubstrs, IncludeSubstrs := includeSubstrs,
    CaseSensitive := false }

/-- A job whose input is the given value and whose output never fails to be written. -/
def testJob (input : Struct) : Job Struct :=
  { Read := .ok input, Write := fun _ => none }

/-- The input of the test "empty markdown input" of `TestChunkMarkdown`. -/
def emptyMarkdownInput : ChunkTextInput :=
  { Text := ""
    Strategy := { Setting := { ChunkMethod := "Markdown", ChunkSize := 100, ChunkOverlap := 0,
                               ModelName := "gpt-3.5-turbo", AllowedSpecial := none,
                               DisallowedSpecial := none, Separators := none } } }

/-- The output that the test "empty markdown input" of `TestChunkMarkdown` expects. -/
def emptyMarkdownOutput : ChunkTextOutput :=
  { TextChunks := [{ Text := "", StartPosition := 0, EndPosition := 0, TokenCount := 0 }]
    ChunkNum := 1, TokenCount := 0, ChunksTokenCount := 0 }

/-- The input of the test "chunk overlap must be less than chunk size" of
`TestChunkText`. -/
def overlapInput : ChunkTextInput :=
  { Text := "Hello world."
    Strategy := { Setting := { ChunkMethod := "Token", ChunkSize := 5, ChunkOverlap := 5,
                               ModelName := "gpt-3.5-turbo", AllowedSpecial := none,
                               DisallowedSpecial := none, Separators := none } } }

/-! ## Theorems -/

/-! ### Data cleansing -/

theorem contains_iff_infix (s substr : String) :
    Contains s substr = true ↔ substr.data <:+: s.data := by
  unfold Contains
  rw [List.any_eq_true]
  constructor
  · rintro ⟨t, ht, hp⟩
    rw [List.mem_tails] at ht
    rw [List.isPrefixOf_iff_prefix] at hp
    exact List.IsInfix.trans hp.isInfix ht.isInfix
  · intro h
    obtain ⟨t, hp, hs⟩ := List.infix_iff_prefix_suffix.mp h
    exact ⟨t, (List.mem_tails _ _).mpr hs, List.isPrefixOf_iff_prefix.mpr hp⟩

theorem substrExcludeLoop_eq (lib : GoLib) (cs : Bool) (compareText : String)
    (l : List String) :
    substrExcludeLoop lib cs compareText l =
      l.all (fun e => !Contains compareText (if cs then e else lib.ToLower e)) := by
  induction l with
  | nil => rfl
  | cons e rest ih =>
    simp only [substrExcludeLoop, List.all_cons, ih]
    cases cs <;> simp

theorem substrIncludeLoop_eq (lib : GoLib) (cs : Bool) (compareText : String)
    (l : List String) :
    substrIncludeLoop lib cs compareText l =
      l.any (fun e => Contains compareText (if cs then e else lib.ToLower e)) := by
  induction l with
  | nil => rfl
  | cons e rest ih =>
    simp only [substrIncludeLoop, List.any_cons, ih]
    cases cs <;> simp

theorem substrInclude_eq_member (lib : GoLib) (settings : DataCleaningSetting)
    (text : String) : substrInclude lib settings text = substringMember lib settings text := by
  unfold substrInclude substringMember
  simp only [substrExcludeLoop_eq, substrIncludeLoop_eq]
  have hlen : decide (settings.IncludeSubstrs.length > 0) = !settings.IncludeSubstrs.isEmpty := by
    cases settings.IncludeSubstrs <;> simp
  rw [hlen]
  have hnorm : (if (!settings.CaseSensitive) = true then lib.ToLower text else text) =
      (if settings.CaseSensitive = true then text else lib.ToLower text) := by
    cases settings.CaseSensitive <;> simp
  rw [hnorm]
  generalize List.all settings.ExcludeSubstrs _ = a
  generalize List.any settings.IncludeSubstrs _ = b
  cases a <;> cases b <;> cases settings.IncludeSubstrs.isEmpty <;> simp

theorem cleanTextUsingSubstringLoop_eq (lib : GoLib) (settings : DataCleaningSetting)
    (texts acc : List String) :
    cleanTextUsingSubstringLoop lib settings texts acc =
      acc ++ texts.filter (substrInclude lib settings) := by
  induction texts generalizing acc with
  | nil => simp [cleanTextUsingSubstringLoop]
  | cons t rest ih =>
    unfold cleanTextUsingSubstringLoop
    by_cases h : substrInclude lib settings t = true
    · simp [h, ih]
    · simp [h, ih]

theorem cleanTextUsingSubstring_eq (lib : GoLib) (settings : DataCleaningSetting)
    (texts : List String) :
    cleanTextUsingSubstring lib texts settings =
      texts.filter (substringMember lib settings) := by
  unfold cleanTextUsingSubstring
  rw [cleanTextUsingSubstringLoop_eq]
  simp only [List.nil_append]
  congr 1
  funext t
  exact substrInclude_eq_member lib settings t

theorem regexExcludeLoop_isSome (lib : GoLib) (text : String) (l : List String)
    (h : ∀ p ∈ l, (lib.MustCompile p).isSome = true) :
    (regexExcludeLoop lib text l).isSome = true := by
  induction l with
  | nil => rfl
  | cons p rest ih =>
    have hp := h p (List.mem_cons_self _ _)
    unfold regexExcludeLoop
    cases hc : lib.MustCompile p with
    | none => simp [hc] at hp
    | some re =>
      by_cases hm : re text = true
      · simp [hm]
      · simpa [hm] using ih (fun q hq => h q (List.mem_cons_of_mem _ hq))

theorem regexIncludeLoop_isSome (lib : GoLib) (text : String) (l : List String)
    (h : ∀ p ∈ l, (lib.MustCompile p).isSome = true) :
    (regexIncludeLoop lib text l).isSome = true := by
  induction l with
  | nil => rfl
  | cons p rest ih =>
    have hp := h p (List.mem_cons_self _ _)
    unfold regexIncludeLoop
    cases hc : lib.MustCompile p with
    | none => simp [hc] at hp
    | some re =>
      by_cases hm : re text = true
      · simp [hm]
      · simpa [hm] using ih (fun q hq => h q (List.mem_cons_of_mem _ hq))

theorem regexInclude_isSome (lib : GoLib) (settings : DataCleaningSetting) (text : String)
    (h : ∀ p ∈ settings.ExcludePatterns ++ settings.IncludePatterns,
      (lib.MustCompile p).isSome = true) :
    (regexInclude lib settings text).isSome = true := by
  unfold regexInclude
  have hE := regexExcludeLoop_isSome lib text settings.ExcludePatterns
    (fun p hp => h p (List.mem_append_left _ hp))
  have hI := regexIncludeLoop_isSome lib text settings.IncludePatterns
    (fun p hp => h p (List.mem_append_right _ hp))
  cases hx : regexExcludeLoop lib text settings.ExcludePatterns with
  | none => simp [hx] at hE
  | some incl =>
    simp only
    split
    · exact hI
    · rfl

/-- The regex loop keeps, after the accumulator, an order-preserving sublist of the texts
all of whose elements pass the regex test. -/
theorem cleanTextUsingRegexLoop_some (lib : GoLib) (settings : DataCleaningSetting)
    (texts acc out : List String)
    (h : cleanTextUsingRegexLoop lib settings texts acc = some out) :
    ∃ kept, out = acc ++ kept ∧ kept.Sublist texts ∧
      ∀ t ∈ kept, regexInclude lib settings t = some true := by
  induction texts generalizing acc with
  | nil =>
    simp only [cleanTextUsingRegexLoop, Option.some.injEq] at h
    exact ⟨[], by simp [h], List.Sublist.refl _, by simp⟩
  | cons t rest ih =>
    unfold cleanTextUsingRegexLoop at h
    cases hi : regexInclude lib settings t with
    | none => simp [hi] at h
    | some incl =>
      cases incl with
      | true =>
        simp only [hi, if_true] at h
        obtain ⟨kept, h1, h2, h3⟩ := ih _ h
        refine ⟨t :: kept, by simp [h1], h2.cons₂ t, ?_⟩
        intro u hu
        rcases List.mem_cons.mp hu with rfl | hu
        · exact hi
        · exact h3 u hu
      | false =>
        simp only [hi, Bool.false_eq_true, if_false] at h
        obtain ⟨kept, h1, h2, h3⟩ := ih _ h
        exact ⟨kept, h1, h2.cons t, h3⟩

/-- The regex loop keeps every text of a list whose texts all pass the regex test. -/
theorem cleanTextUsingRegexLoop_all (lib : GoLib) (settings : DataCleaningSetting)
    (texts acc : List String) (h : ∀ t ∈ texts, regexInclude lib settings t = some true) :
    cleanTextUsingRegexLoop lib settings texts acc = some (acc ++ texts) := by
  induction texts generalizing acc with
  | nil => simp [cleanTextUsingRegexLoop]
  | cons t rest ih =>
    unfold cleanTextUsingRegexLoop
    rw [h t (List.mem_cons_self _ _)]
    simp only [if_true]
    rw [ih _ (fun u hu => h u (List.mem_cons_of_mem _ hu))]
    simp

/-- The regex loop returns when every pattern compiles. -/
theorem cleanTextUsingRegexLoop_isSome (lib : GoLib) (settings : DataCleaningSetting)
    (texts acc : List String)
    (h : ∀ p ∈ settings.ExcludePatterns ++ settings.IncludePatterns,
      (lib.MustCompile p).isSome = true) :
    (cleanTextUsingRegexLoop lib settings texts acc).isSome = true := by
  induction texts generalizing acc with
  | nil => rfl
  | cons t rest ih =>
    unfold cleanTextUsingRegexLoop
    have hs := regexInclude_isSome lib settings t h
    cases hi : regexInclude lib settings t with
    | none => simp [hi] at hs
    | some incl =>
      simp only
      split
      · exact ih _
      · exact ih _

theorem CleanData_substring_aux (lib : GoLib) (texts : List String)
    (settings : DataCleaningSetting) (h : settings.CleanMethod = "Substring") :
    CleanData lib { Texts := texts, Setting := settings } =
      some { CleanedTexts := texts.filter (substringMember lib settings) } := by
  unfold CleanData
  have hne : ¬ settings.CleanMethod = "Regex" := by rw [h]; decide
  rw [if_neg hne, if_pos h, cleanTextUsingSubstring_eq]

/-- C6. With `CleanMethod` "Substring", `CleanData` returns exactly the input texts, in
their order and unmodified, that pass the membership test: no exclude substring is
contained and, when there are include substrings, at least one of them is; containment
is taken on the given strings when `CaseSensitive` holds and on their lower-cased forms
otherwise, and it is the occurrence of the substring as a contiguous run. -/
theorem CleanData_substring (lib : GoLib) (texts : List String)
    (settings : DataCleaningSetting) (h : settings.CleanMethod = "Substring") :
    CleanData lib { Texts := texts, Setting := settings } =
        some { CleanedTexts := texts.filter (substringMember lib settings) } ∧
      (∀ text, substringMember lib settings text = true ↔
        (∀ e ∈ settings.ExcludeSubstrs,
            ¬ (if settings.CaseSensitive then e else lib.ToLower e).data <:+:
              (if settings.CaseSensitive then text else lib.ToLower text).data) ∧
          (settings.IncludeSubstrs ≠ [] →
            ∃ i ∈ settings.IncludeSubstrs,
              (if settings.CaseSensitive then i else lib.ToLower i).data <:+:
                (if settings.CaseSensitive then text else lib.ToLower text).data)) := by
  constructor
  · exact CleanData_substring_aux lib texts settings h
  · intro text
    unfold substringMember
    simp only [Bool.and_eq_true, List.all_eq_true, Bool.or_eq_true, List.any_eq_true,
      Bool.not_eq_true', List.isEmpty_iff, ← contains_iff_infix]
    constructor
    · rintro ⟨h1, h2⟩
      refine ⟨fun e he => by simp [h1 e he], fun hne => ?_⟩
      rcases h2 with h2 | h2
      · exact absurd h2 hne
      · exact h2
    · rintro ⟨h1, h2⟩
      refine ⟨fun e he => by simpa using h1 e he, ?_⟩
      by_cases hne : settings.IncludeSubstrs = []
      · exact Or.inl hne
      · exact Or.inr (h2 hne)

/-- C7. With a `CleanMethod` that is neither "Regex" nor "Substring", `CleanData` returns
the input texts themselves, whatever the include and exclude lists hold. -/
theorem CleanData_default (lib : GoLib) (texts : List String)
    (settings : DataCleaningSetting) (hr : settings.CleanMethod ≠ "Regex")
    (hs : settings.CleanMethod ≠ "Substring") :
    CleanData lib { Texts := texts, Setting := settings } = some { CleanedTexts := texts } := by
  unfold CleanData
  simp only [hr, hs, if_false]

/-- C10. `CleanData` is idempotent: when every regex pattern compiles (needed for the
Regex method only) it returns, its output is an order-preserving sublist of the input,
and cleaning that output again with the same setting returns it unchanged. -/
theorem CleanData_idempotent (lib : GoLib) (texts : List String)
    (settings : DataCleaningSetting)
    (h : settings.CleanMethod = "Regex" →
      ∀ p ∈ settings.ExcludePatterns ++ settings.IncludePatterns,
        (lib.MustCompile p).isSome = true) :
    ∃ out, CleanData lib { Texts := texts, Setting := settings } = some out ∧
      out.CleanedTexts.Sublist texts ∧
      CleanData lib { Texts := out.CleanedTexts, Setting := settings } = some out := by
  by_cases hr : settings.CleanMethod = "Regex"
  · have hsome := cleanTextUsingRegexLoop_isSome lib settings texts [] (h hr)
    cases hl : cleanTextUsingRegexLoop lib settings texts [] with
    | none => simp [hl] at hsome
    | some out =>
      obtain ⟨kept, h1, h2, h3⟩ := cleanTextUsingRegexLoop_some lib settings texts [] out hl
      simp only [List.nil_append] at h1
      subst h1
      refine ⟨{ CleanedTexts := out }, ?_, h2, ?_⟩
      · simp [CleanData, hr, cleanTextUsingRegex, hl]
      · simp [CleanData, hr, cleanTextUsingRegex,
          cleanTextUsingRegexLoop_all lib settings out [] h3]
  · by_cases hs : settings.CleanMethod = "Substring"
    · refine ⟨{ CleanedTexts := texts.filter (substringMember lib settings) }, ?_, ?_, ?_⟩
      · exact (CleanData_substring_aux lib texts settings hs)
      · exact List.filter_sublist _
      · rw [CleanData_substring_aux lib _ settings hs, List.filter_filter]
        simp
    · exact ⟨{ CleanedTexts := texts }, by simp [CleanData, hr, hs], List.Sublist.refl _,
        by simp [CleanData, hr, hs]⟩

/-! ### `Execute` -/

section ExecuteLemmas

variable {Pb : Type}

theorem writeOutput_job (idx : Nat) (job : Job Pb) (output : Pb) :
    ∀ e ∈ writeOutput idx job output, e.job = idx := by
  intro e he
  unfold writeOutput at he
  cases hw : job.Write output <;> simp [hw] at he
  · subst he; rfl
  · rcases he with rfl | rfl <;> rfl

theorem afterChunk_job (c : Callees Pb) (idx : Nat) (job : Job Pb)
    (r : ChunkTextOutput × Option String) : ∀ e ∈ afterChunk c idx job r, e.job = idx := by
  intro e he
  unfold afterChunk at he
  cases h2 : r.2 with
  | some err => simp [h2] at he; subst he; rfl
  | none =>
    cases hc : c.ConvertToStructpbChunk r.1 with
    | error err => simp [h2, hc] at he; subst he; rfl
    | ok output =>
      simp only [h2, hc] at he
      exact writeOutput_job idx job output e he

theorem ExecuteJob_job (lib : GoLib) (c : Callees Pb) (Task : String) (idx : Nat)
    (job : Job Pb) (events : List (Event Pb))
    (h : ExecuteJob lib c Task idx job = some events) : ∀ e ∈ events, e.job = idx := by
  intro e he
  unfold ExecuteJob at h
  cases hr : job.Read with
  | error err =>
    simp [hr] at h; subst h; simp at he; subst he; rfl
  | ok input =>
    simp only [hr] at h
    by_cases ht : Task = taskChunkText
    · simp only [ht, if_true] at h
      cases hc : c.ConvertFromStructpbChunk input with
      | error err => simp [hc] at h; subst h; simp at he; subst he; rfl
      | ok inputStruct =>
        simp only [hc] at h
        by_cases hm : inputStruct.Strategy.Setting.ChunkMethod = "Markdown"
        · simp only [hm, if_true, Option.some.injEq] at h
          subst h
          rcases List.mem_cons.mp he with rfl | he
          · rfl
          · exact afterChunk_job c idx job _ e he
        · simp only [hm, if_false, Option.some.injEq] at h
          subst h
          rcases List.mem_cons.mp he with rfl | he
          · rfl
          · exact afterChunk_job c idx job _ e he
    · simp only [ht, if_false] at h
      by_cases hd : Task = taskDataCleansing
      · simp only [hd, if_true] at h
        cases hc : c.ConvertFromStructpbClean input with
        | error err => simp [hc] at h; subst h; simp at he; subst he; rfl
        | ok cleanDataInput =>
          simp only [hc] at h
          cases hcl : CleanData lib cleanDataInput with
          | none => simp [hcl] at h
          | some cleaned =>
            simp only [hcl] at h
            cases hto : c.ConvertToStructpbClean cleaned with
            | error err => simp [hto] at h; subst h; simp at he; subst he; rfl
            | ok output =>
              simp only [hto, Option.some.injEq] at h
              subst h
              exact writeOutput_job idx job output e he
      · simp only [hd, if_false, Option.some.injEq] at h
        subst h; simp at he; subst he; rfl

theorem jobEvents_job (lib : GoLib) (c : Callees Pb) (Task : String) (idx : Nat)
    (job : Job Pb) : ∀ e ∈ jobEvents lib c Task idx job, e.job = idx := by
  intro e he
  unfold jobEvents at he
  cases h : ExecuteJob lib c Task idx job with
  | none => simp [h] at he
  | some events =>
    simp only [h, Option.getD_some] at he
    exact ExecuteJob_job lib c Task idx job events h e he

/-- When no iteration panics the loop returns `nil` after the events of its iterations. -/
theorem ExecuteLoop_returned (lib : GoLib) (c : Callees Pb) (Task : String)
    (jobs : List (Job Pb)) (idx : Nat) (trace : List (Event Pb))
    (h : ∀ job ∈ jobs, ∀ k, (ExecuteJob lib c Task k job).isSome = true) :
    ExecuteLoop lib c Task idx jobs trace =
      .returned none (trace ++ traceFrom lib c Task idx jobs) := by
  induction jobs generalizing idx trace with
  | nil => simp [ExecuteLoop, traceFrom]
  | cons job rest ih =>
    have hj := h job (List.mem_cons_self _ _) idx
    unfold ExecuteLoop traceFrom jobEvents
    cases he : ExecuteJob lib c Task idx job with
    | none => simp [he] at hj
    | some events =>
      simp only [Option.getD_some]
      rw [ih _ _ (fun j hjm k => h j (List.mem_cons_of_mem _ hjm) k), List.append_assoc]

/-- The events of the job at position `i` among the events of the iterations. -/
theorem traceFrom_filter (lib : GoLib) (c : Callees Pb) (Task : String)
    (jobs : List (Job Pb)) (idx i : Nat) (job : Job Pb)
    (hjob : jobs.get? i = some job) :
    (traceFrom lib c Task idx jobs).filter (fun e => decide (e.job = idx + i)) =
      jobEvents lib c Task (idx + i) job := by
  induction jobs generalizing idx i with
  | nil => simp at hjob
  | cons j rest ih =>
    have hnone : ∀ (l : List (Job Pb)) (k : Nat), idx + i < k →
        (traceFrom lib c Task k l).filter (fun e => decide (e.job = idx + i)) = [] := by
      intro l
      induction l with
      | nil => intro k _; simp [traceFrom]
      | cons a l ihl =>
        intro k hk
        simp only [traceFrom, List.filter_append, ihl (k + 1) (by omega), List.append_nil]
        rw [List.filter_eq_nil_iff]
        intro e he
        have := jobEvents_job lib c Task k a e he
        simp only [decide_eq_true_eq]
        omega
    cases i with
    | zero =>
      simp only [List.get?_cons_zero, Option.some.injEq] at hjob
      subst hjob
      simp only [traceFrom, List.filter_append, Nat.add_zero]
      have h2 := hnone rest (idx + 1) (by omega)
      simp only [Nat.add_zero] at h2
      rw [h2, List.append_nil, List.filter_eq_self]
      intro e he
      simpa using jobEvents_job lib c Task idx j e he
    | succ n =>
      simp only [List.get?_cons_succ] at hjob
      simp only [traceFrom, List.filter_append]
      have h1 : (jobEvents lib c Task idx j).filter
          (fun e => decide (e.job = idx + (n + 1))) = [] := by
        rw [List.filter_eq_nil_iff]
        intro e he
        have := jobEvents_job lib c Task idx j e he
        simp only [decide_eq_true_eq]
        omega
      rw [h1, List.nil_append]
      have := ih (idx + 1) n hjob
      have e1 : idx + 1 + n = idx + (n + 1) := by omega
      rw [e1] at this
      exact this

theorem reportedErrors_filter (i : Nat) (trace : List (Event Pb)) :
    reportedErrors i (trace.filter (fun e => decide (e.job = i))) = reportedErrors i trace := by
  induction trace with
  | nil => rfl
  | cons e rest ih =>
    unfold reportedErrors at ih ⊢
    by_cases h : e.job = i
    · simp only [List.filter_cons, h, decide_True, if_true, List.filterMap_cons, ih]
    · simp only [List.filter_cons, h, decide_False, Bool.false_eq_true, if_false,
        List.filterMap_cons, ih]
      cases e <;> simp_all [Event.job]

theorem writtenOutputs_filter (i : Nat) (trace : List (Event Pb)) :
    writtenOutputs i (trace.filter (fun e => decide (e.job = i))) = writtenOutputs i trace := by
  induction trace with
  | nil => rfl
  | cons e rest ih =>
    unfold writtenOutputs at ih ⊢
    by_cases h : e.job = i
    · simp only [List.filter_cons, h, decide_True, if_true, List.filterMap_cons, ih]
    · simp only [List.filter_cons, h, decide_False, Bool.false_eq_true, if_false,
        List.filterMap_cons, ih]
      cases e with
      | Write j o err => cases err <;> simp_all [Event.job]
      | _ => simp

theorem writeOutput_logs (idx : Nat) (job : Job Pb) (output : Pb) :
    (∀ err, job.Write output = some err →
      reportedErrors idx (writeOutput idx job output) = [err] ∧
        writtenOutputs idx (writeOutput idx job output) = []) ∧
    (job.Write output = none →
      reportedErrors idx (writeOutput idx job output) = [] ∧
        writtenOutputs idx (writeOutput idx job output) = [output]) := by
  constructor
  · intro err h
    simp [writeOutput, h, reportedErrors, writtenOutputs]
  · intro h
    simp [writeOutput, h, reportedErrors, writtenOutputs]

/-- One iteration against the steps of the job: it panics exactly when cleansing does,
reports the error of the first failing step once and then writes nothing without error,
and otherwise writes the output once and reports nothing. -/
theorem ExecuteJob_steps (lib : GoLib) (c : Callees Pb) (Task : String) (idx : Nat)
    (job : Job Pb) :
    match jobSteps lib c Task job with
    | none => ExecuteJob lib c Task idx job = none
    | some (.error err) =>
      ∃ events, ExecuteJob lib c Task idx job = some events ∧
        reportedErrors idx events = [err] ∧ writtenOutputs idx events = []
    | some (.ok output) =>
      ∃ events, ExecuteJob lib c Task idx job = some events ∧
        reportedErrors idx events = [] ∧ writtenOutputs idx events = [output] := by
  unfold jobSteps ExecuteJob
  cases hr : job.Read with
  | error err => simp [reportedErrors, writtenOutputs]
  | ok input =>
    simp only
    by_cases ht : Task = taskChunkText
    · simp only [ht, if_true]
      cases hc : c.ConvertFromStructpbChunk input with
      | error err => simp [reportedErrors, writtenOutputs]
      | ok inputStruct =>
        simp only
        by_cases hm : inputStruct.Strategy.Setting.ChunkMethod = "Markdown"
        · simp only [hm, if_true]
          cases h2 : (c.chunkMarkdown inputStruct).2 with
          | some err => simp [afterChunk, h2, reportedErrors, writtenOutputs]
          | none =>
            cases hto : c.ConvertToStructpbChunk (c.chunkMarkdown inputStruct).1 with
            | error err => simp [afterChunk, h2, hto, reportedErrors, writtenOutputs]
            | ok output =>
              cases hw : job.Write output with
              | some err =>
                simp [afterChunk, h2, hto, hw, writeOutput, reportedErrors, writtenOutputs]
              | none =>
                simp [afterChunk, h2, hto, hw, writeOutput, reportedErrors, writtenOutputs]
        · simp only [hm, if_false]
          cases h2 : (c.chunkText inputStruct).2 with
          | some err => simp [afterChunk, h2, reportedErrors, writtenOutputs]
          | none =>
            cases hto : c.ConvertToStructpbChunk (c.chunkText inputStruct).1 with
            | error err => simp [afterChunk, h2, hto, reportedErrors, writtenOutputs]
            | ok output =>
              cases hw : job.Write output with
              | some err =>
                simp [afterChunk, h2, hto, hw, writeOutput, reportedErrors, writtenOutputs]
              | none =>
                simp [afterChunk, h2, hto, hw, writeOutput, reportedErrors, writtenOutputs]
    · simp only [ht, if_false]
      by_cases hd : Task = taskDataCleansing
      · simp only [hd, if_true]
        cases hc : c.ConvertFromStructpbClean input with
        | error err => simp [reportedErrors, writtenOutputs]
        | ok cleanDataInput =>
          simp only
          cases hcl : CleanData lib cleanDataInput with
          | none => simp
          | some cleaned =>
            simp only
            cases hto : c.ConvertToStructpbClean cleaned with
            | error err => simp [reportedErrors, writtenOutputs]
            | ok output =>
              cases hw : job.Write output with
              | some err => simp [hw, writeOutput, reportedErrors, writtenOutputs]
              | none => simp [hw, writeOutput, reportedErrors, writtenOutputs]
      · simp [hd, reportedErrors, writtenOutputs]

theorem ExecuteJob_chunk_isSome (lib : GoLib) (c : Callees Pb) (idx : Nat) (job : Job Pb) :
    (ExecuteJob lib c taskChunkText idx job).isSome = true := by
  unfold ExecuteJob
  cases hr : job.Read with
  | error err => rfl
  | ok input =>
    simp only [if_true]
    cases hc : c.ConvertFromStructpbChunk input with
    | error err => rfl
    | ok inputStruct =>
      simp only
      split <;> rfl

end ExecuteLemmas

/-! ### Pipeline mode -/

theorem Split_head (sep : Char) (l : List Char) :
    ∃ tl, Split sep l = l.takeWhile (fun c => decide (c ≠ sep)) :: tl := by
  induction l with
  | nil => exact ⟨[], rfl⟩
  | cons c cs ih =>
    obtain ⟨tl, htl⟩ := ih
    unfold Split
    by_cases h : c = sep
    · simp [h]
    · simp [h, htl]

theorem Split_source (X : String) :
    (Split '-' ("source-" ++ X).data).get? 1 =
      some (X.data.takeWhile (fun c => decide (c ≠ '-'))) := by
  obtain ⟨tl, htl⟩ := Split_head '-' X.data
  have : ("source-" ++ X).data = 's' :: 'o' :: 'u' :: 'r' :: 'c' :: 'e' :: '-' :: X.data := by
    rw [String.data_append]; rfl
  rw [this]
  simp [Split, htl]

theorem Split_destination (Y : String) :
    (Split '-' ("destination-" ++ Y).data).get? 1 =
      some (Y.data.takeWhile (fun c => decide (c ≠ '-'))) := by
  obtain ⟨tl, htl⟩ := Split_head '-' Y.data
  have : ("destination-" ++ Y).data =
      'd' :: 'e' :: 's' :: 't' :: 'i' :: 'n' :: 'a' :: 't' :: 'i' :: 'o' :: 'n' :: '-' :: Y.data := by
    rw [String.data_append]; rfl
  rw [this]
  simp [Split, htl]

theorem takeWhile_of_not_mem (sep : Char) (l : List Char) (h : sep ∉ l) :
    l.takeWhile (fun c => decide (c ≠ sep)) = l := by
  rw [List.takeWhile_eq_self_iff]
  intro c hc
  simp only [ne_eq, decide_not, Bool.not_eq_true', decide_eq_false_iff_not]
  rintro rfl
  exact h hc

/-- C8, amended. When the four lookups succeed, `getModeByConnRscName` returns `MODE_ASYNC`
without error unless both connection types are directness; when both are, with the ids
"source-X" and "destination-Y", it returns `MODE_SYNC` without error exactly when X and
Y agree up to their first '-', and `MODE_UNSPECIFIED` with the `InvalidArgument` error
otherwise; for X and Y without '-' that is exactly when X = Y. -/
theorem getModeByConnRscName_decides {CT : Type} [DecidableEq CT] (DIRECTNESS : CT)
    (client : ConnectorServiceClient CT) (srcConnRscName dstConnRscName : String)
    (srcConn dstConn : String) (srcDef dstDef : ConnectorDefinition CT)
    (h1 : client.GetSourceConnector srcConnRscName = .ok srcConn)
    (h2 : client.GetSourceConnectorDefinition srcConn = .ok srcDef)
    (h3 : client.GetDestinationConnector dstConnRscName = .ok dstConn)
    (h4 : client.GetDestinationConnectorDefinition dstConn = .ok dstDef) :
    (¬ (srcDef.ConnectionType = DIRECTNESS ∧ dstDef.ConnectionType = DIRECTNESS) →
      getModeByConnRscName DIRECTNESS client srcConnRscName dstConnRscName =
        some (.MODE_ASYNC, none)) ∧
    (srcDef.ConnectionType = DIRECTNESS → dstDef.ConnectionType = DIRECTNESS →
      ∀ X Y : String, srcDef.Id = "source-" ++ X → dstDef.Id = "destination-" ++ Y →
        (X.data.takeWhile (fun c => decide (c ≠ '-')) =
            Y.data.takeWhile (fun c => decide (c ≠ '-')) →
          getModeByConnRscName DIRECTNESS client srcConnRscName dstConnRscName =
            some (.MODE_SYNC, none)) ∧
        (X.data.takeWhile (fun c => decide (c ≠ '-')) ≠
            Y.data.takeWhile (fun c => decide (c ≠ '-')) →
          getModeByConnRscName DIRECTNESS client srcConnRscName dstConnRscName =
            some (.MODE_UNSPECIFIED, some (.status "InvalidArgument"
              "Source and destination connector definition id must be the same if they are both directness connection type"))) ∧
        ('-' ∉ X.data → '-' ∉ Y.data →
          (X.data.takeWhile (fun c => decide (c ≠ '-')) =
            Y.data.takeWhile (fun c => decide (c ≠ '-')) ↔ X = Y))) := by
  have hrun : getModeByConnRscName DIRECTNESS client srcConnRscName dstConnRscName =
      decideMode DIRECTNESS srcDef dstDef := by
    simp only [getModeByConnRscName, h1, h2, h3, h4]
  rw [hrun]
  refine ⟨fun hn => ?_, fun hs hd X Y hX hY => ⟨fun he => ?_, fun hne => ?_, fun hx hy => ?_⟩⟩
  · unfold decideMode
    rw [if_neg hn]
  · unfold decideMode
    rw [if_pos ⟨hs, hd⟩, hX, hY, Split_source, Split_destination]
    simp only [he, if_true]
  · unfold decideMode
    rw [if_pos ⟨hs, hd⟩, hX, hY, Split_source, Split_destination]
    simp only [hne, if_false]
  · rw [takeWhile_of_not_mem _ _ hx, takeWhile_of_not_mem _ _ hy]
    constructor
    · intro h
      exact String.ext h
    · intro h
      rw [h]

/-- C8, at the ids "source-http" and "destination-http". -/
theorem getModeByConnRscName_decides_witness :
    (testClient "source-http" "destination-http" .DIRECTNESS).GetSourceConnector "s" = .ok "def/s" ∧
    getModeByConnRscName TestConnectionType.DIRECTNESS
      (testClient "source-http" "destination-http" .DIRECTNESS) "s" "d" = some (.MODE_SYNC, none) :=
  ⟨rfl, ((getModeByConnRscName_decides TestConnectionType.DIRECTNESS
    (testClient "source-http" "destination-http" .DIRECTNESS) "s" "d" "def/s" "def/d"
    { Id := "source-http", ConnectionType := .DIRECTNESS }
    { Id := "destination-http", ConnectionType := .DIRECTNESS } rfl rfl rfl rfl).2 rfl rfl
    "http" "http" (by decide) (by decide)).1 rfl⟩

/-- C8 as stated fails: for the directness ids "source-a-b" and "destination-a-c" the mode
is `MODE_SYNC` although "a-b" and "a-c" differ. -/
theorem getModeByConnRscName_sync_on_different_ids :
    getModeByConnRscName TestConnectionType.DIRECTNESS
        (testClient "source-a-b" "destination-a-c" .DIRECTNESS) "s" "d" =
      some (.MODE_SYNC, none) ∧ "a-b" ≠ "a-c" := by
  decide

/-- When no iteration panics, `Execute` returns `nil`, and for the job at each position it
has reported the error of the first failing step exactly once and written nothing
without error, or, when no step fails, written the output exactly once and reported
nothing. -/
theorem Execute_reports_each_job {Pb : Type} (lib : GoLib) (c : Callees Pb) (Task : String)
    (jobs : List (Job Pb))
    (hnp : ∀ job ∈ jobs, (jobSteps lib c Task job).isSome = true) :
    ∃ trace, Execute lib c Task jobs = .returned none trace ∧
      ∀ i job, jobs.get? i = some job →
        (∀ err, jobSteps lib c Task job = some (.error err) →
          reportedErrors i trace = [err] ∧ writtenOutputs i trace = []) ∧
        (∀ output, jobSteps lib c Task job = some (.ok output) →
          reportedErrors i trace = [] ∧ writtenOutputs i trace = [output]) := by
  have hsome : ∀ job ∈ jobs, ∀ k, (ExecuteJob lib c Task k job).isSome = true := by
    intro job hj k
    have h1 := hnp job hj
    have h2 := ExecuteJob_steps lib c Task k job
    cases hs : jobSteps lib c Task job with
    | none => simp [hs] at h1
    | some r =>
      rw [hs] at h2
      cases r with
      | error err => obtain ⟨ev, he, _⟩ := h2; simp [he]
      | ok out => obtain ⟨ev, he, _⟩ := h2; simp [he]
  refine ⟨_, by unfold Execute; exact ExecuteLoop_returned lib c Task jobs 0 [] hsome, ?_⟩
  intro i job hjob
  have hf := traceFrom_filter lib c Task jobs 0 i job hjob
  simp only [Nat.zero_add, List.nil_append] at hf ⊢
  have h2 := ExecuteJob_steps lib c Task i job
  constructor
  · intro err hs
    rw [hs] at h2
    obtain ⟨ev, he, hr, hw⟩ := h2
    rw [← reportedErrors_filter, ← writtenOutputs_filter, hf]
    simp only [jobEvents, he, Option.getD_some]
    exact ⟨hr, hw⟩
  · intro output hs
    rw [hs] at h2
    obtain ⟨ev, he, hr, hw⟩ := h2
    rw [← reportedErrors_filter, ← writtenOutputs_filter, hf]
    simp only [jobEvents, he, Option.getD_some]
    exact ⟨hr, hw⟩

/-- C9. For a `TASK_CHUNK_TEXT` job whose input reads and converts, `Execute` returns and
the events of that job are: one call of `chunkMarkdown` when the `ChunkMethod` of the
converted input is "Markdown" and one call of `chunkText` otherwise, on the input as
converted, followed by the report of the error of that call, or by the write of the
converted result of that call. -/
theorem Execute_chunk_dispatch {Pb : Type} (lib : GoLib) (c : Callees Pb)
    (jobs : List (Job Pb)) (i : Nat) (job : Job Pb) (input : Pb)
    (inputStruct : ChunkTextInput) (hjob : jobs.get? i = some job)
    (hread : job.Read = .ok input)
    (hconv : c.ConvertFromStructpbChunk input = .ok inputStruct) :
    ∃ trace, Execute lib c taskChunkText jobs = .returned none trace ∧
      trace.filter (fun e => decide (e.job = i)) =
        (if inputStruct.Strategy.Setting.ChunkMethod = "Markdown" then
          .chunkMarkdown i inputStruct :: afterChunk c i job (c.chunkMarkdown inputStruct)
        else
          .chunkText i inputStruct :: afterChunk c i job (c.chunkText inputStruct)) ∧
      (∀ r err, r.2 = some err → afterChunk c i job r = [.Error i err]) ∧
      (∀ r output, r.2 = none → c.ConvertToStructpbChunk r.1 = .ok output →
        job.Write output = none → afterChunk c i job r = [.Write i output none]) := by
  have hret := ExecuteLoop_returned lib c taskChunkText jobs 0 []
    (fun j _ k => ExecuteJob_chunk_isSome lib c k j)
  refine ⟨_, hret, ?_, ?_, ?_⟩
  · have hf := traceFrom_filter lib c taskChunkText jobs 0 i job hjob
    simp only [Nat.zero_add] at hf
    rw [List.nil_append, hf]
    unfold jobEvents ExecuteJob
    simp only [hread, hconv, if_true]
    split <;> rfl
  · intro r err h
    simp [afterChunk, h]
  · intro r output h1 h2 h3
    simp [afterChunk, h1, h2, writeOutput, h3]

/-! ### Evaluations of the cleansing and `Execute` theorems -/

/-- C6, at three texts with the exclude substring "spam" and the include substring
"HELLO", case insensitive. -/
theorem CleanData_substring_witness :
    (testSetting "Substring" [] ["spam"] ["HELLO"]).CleanMethod = "Substring" ∧
    CleanData asciiLib { Texts := ["Hello World", "foo", "spam hello"],
                         Setting := testSetting "Substring" [] ["spam"] ["HELLO"] } =
      some { CleanedTexts := ["Hello World"] } :=
  ⟨rfl, (CleanData_substring asciiLib ["Hello World", "foo", "spam hello"]
    (testSetting "Substring" [] ["spam"] ["HELLO"]) rfl).1.trans (by decide)⟩

/-- C7, at the empty method with lists that would remove both texts. -/
theorem CleanData_default_witness :
    (testSetting "" ["a"] ["a"] ["zzz"]).CleanMethod ≠ "Regex" ∧
    (testSetting "" ["a"] ["a"] ["zzz"]).CleanMethod ≠ "Substring" ∧
    CleanData asciiLib { Texts := ["a", "b"], Setting := testSetting "" ["a"] ["a"] ["zzz"] } =
      some { CleanedTexts := ["a", "b"] } :=
  ⟨by decide, by decide,
    CleanData_default asciiLib ["a", "b"] (testSetting "" ["a"] ["a"] ["zzz"])
      (by decide) (by decide)⟩

/-- C10, at the Regex method with one exclude pattern, which compiles. -/
theorem CleanData_idempotent_witness :
    (∀ p ∈ (testSetting "Regex" ["b"] [] []).ExcludePatterns ++
        (testSetting "Regex" ["b"] [] []).IncludePatterns,
      (asciiLib.MustCompile p).isSome = true) ∧
    ∃ out, CleanData asciiLib { Texts := ["a", "b", "ac"],
                                Setting := testSetting "Regex" ["b"] [] [] } = some out ∧
      out.CleanedTexts.Sublist ["a", "b", "ac"] ∧
      CleanData asciiLib { Texts := out.CleanedTexts,
                           Setting := testSetting "Regex" ["b"] [] [] } = some out :=
  ⟨by decide, CleanData_idempotent asciiLib ["a", "b", "ac"] (testSetting "Regex" ["b"] [] [])
    (fun _ => by decide)⟩

/-- C9, at the job of the test "empty markdown input": `chunkMarkdown` is called, and its
result is written. -/
theorem Execute_chunk_dispatch_witness :
    (testJob (.chunkInput emptyMarkdownInput)).Read = .ok (.chunkInput emptyMarkdownInput) ∧
    ∃ trace, Execute asciiLib testCallees taskChunkText
        [testJob (.chunkInput emptyMarkdownInput)] = .returned none trace ∧
      trace.filter (fun e => decide (e.job = 0)) =
        [.chunkMarkdown 0 emptyMarkdownInput, .Write 0 (.chunkOutput emptyMarkdownOutput) none] := by
  refine ⟨rfl, ?_⟩
  obtain ⟨trace, h1, h2, _, _⟩ := Execute_chunk_dispatch asciiLib testCallees
    [testJob (.chunkInput emptyMarkdownInput)] 0 (testJob (.chunkInput emptyMarkdownInput))
    (.chunkInput emptyMarkdownInput) emptyMarkdownInput rfl rfl rfl
  exact ⟨trace, h1, h2.trans (by decide)⟩

/-- C1 fails on the code: with the task `TASK_DATA_CLEANSING`, a first job whose setting
has the method "Regex" and the exclude pattern "(" makes `regexp.MustCompile` panic:
`Execute` does not return, nothing is reported on the error handler of that job, and
the second job, which alone is cleansed and written, is never processed. -/
theorem Execute_panics_on_invalid_pattern :
    Execute asciiLib testCallees taskDataCleansing
        [testJob (.cleanInput { Texts := ["a"], Setting := testSetting "Regex" ["("] [] [] }),
         testJob (.cleanInput { Texts := ["a"], Setting := testSetting "Substring" [] [] [] })] =
      .panicked [] ∧
    Execute asciiLib testCallees taskDataCleansing
        [testJob (.cleanInput { Texts := ["a"], Setting := testSetting "Substring" [] [] [] })] =
      .returned none [.Write 0 (.cleanOutput { CleanedTexts := ["a"] }) none] := by
  decide

/-! ### Chunking -/

/-- C3. `SetDefault` is total and replaces exactly the fields at their zero value, each on
its own: `ChunkSize` 0 by 512, `ChunkOverlap` 0 by 100, `ModelName` "" by
"gpt-3.5-turbo", a nil `AllowedSpecial` by the empty list, a nil `DisallowedSpecial`
by ["all"], a nil `Separators` by the four default separators; `ChunkMethod` and every
field not at its zero value stay; the two cases of `TestSetDefault` come out as
expected. -/
theorem SetDefault_fields (s : Setting) :
    s.SetDefault.ChunkMethod = s.ChunkMethod ∧
    s.SetDefault.ChunkSize = (if s.ChunkSize = 0 then 512 else s.ChunkSize) ∧
    s.SetDefault.ChunkOverlap = (if s.ChunkOverlap = 0 then 100 else s.ChunkOverlap) ∧
    s.SetDefault.ModelName = (if s.ModelName = "" then "gpt-3.5-turbo" else s.ModelName) ∧
    s.SetDefault.AllowedSpecial = some (s.AllowedSpecial.getD []) ∧
    s.SetDefault.DisallowedSpecial = some (s.DisallowedSpecial.getD ["all"]) ∧
    s.SetDefault.Separators = some (s.Separators.getD ["\n\n", "\n", " ", ""]) ∧
    Setting.SetDefault
        { ChunkMethod := "", ChunkSize := 0, ChunkOverlap := 0, ModelName := ""
          AllowedSpecial := none, DisallowedSpecial := none, Separators := none } =
      { ChunkMethod := "", ChunkSize := 512, ChunkOverlap := 100, ModelName := "gpt-3.5-turbo"
        AllowedSpecial := some [], DisallowedSpecial := some ["all"]
        Separators := some ["\n\n", "\n", " ", ""] } ∧
    Setting.SetDefault
        { ChunkMethod := "", ChunkSize := 256, ChunkOverlap := 0, ModelName := "gpt-4"
          AllowedSpecial := none, DisallowedSpecial := none, Separators := none } =
      { ChunkMethod := "", ChunkSize := 256, ChunkOverlap := 100, ModelName := "gpt-4"
        AllowedSpecial := some [], DisallowedSpecial := some ["all"]
        Separators := some ["\n\n", "\n", " ", ""] } := by
  refine ⟨rfl, rfl, rfl, rfl, ?_, ?_, ?_, by decide, by decide⟩
  · cases h : s.AllowedSpecial <;> simp [Setting.SetDefault, h]
  · cases h : s.DisallowedSpecial <;> simp [Setting.SetDefault, h]
  · cases h : s.Separators <;> simp [Setting.SetDefault, h]

theorem firstOccurrence_some (chunk : List Char) (l : List Char) (i : Nat)
    (h : firstOccurrence chunk l = some i) :
    chunk <+: l.drop i ∧ ∀ j < i, ¬ chunk <+: l.drop j := by
  induction l generalizing i with
  | nil =>
    unfold firstOccurrence at h
    by_cases hp : chunk.isPrefixOf [] = true
    · simp only [hp, if_true, Option.some.injEq] at h
      subst h
      exact ⟨by simpa using List.isPrefixOf_iff_prefix.mp hp, fun j hj => absurd hj (by omega)⟩
    · simp [hp] at h
  | cons r rest ih =>
    unfold firstOccurrence at h
    by_cases hp : chunk.isPrefixOf (r :: rest) = true
    · simp only [hp, if_true, Option.some.injEq] at h
      subst h
      exact ⟨by simpa using List.isPrefixOf_iff_prefix.mp hp, fun j hj => absurd hj (by omega)⟩
    · simp only [hp, Bool.false_eq_true, if_false] at h
      cases hf : firstOccurrence chunk rest with
      | none => simp [hf] at h
      | some k =>
        simp only [hf, Option.some.injEq] at h
        subst h
        obtain ⟨h1, h2⟩ := ih k hf
        refine ⟨by simpa using h1, ?_⟩
        intro j hj
        cases j with
        | zero =>
          simp only [List.drop_zero]
          intro hpre
          exact hp (List.isPrefixOf_iff_prefix.mpr hpre)
        | succ m =>
          simp only [List.drop_succ_cons]
          exact h2 m (by omega)

theorem firstOccurrence_none (chunk : List Char) (l : List Char)
    (h : firstOccurrence chunk l = none) : ∀ i, ¬ chunk <+: l.drop i := by
  induction l with
  | nil =>
    unfold firstOccurrence at h
    by_cases hp : chunk.isPrefixOf [] = true
    · simp [hp] at h
    · intro i hpre
      simp only [List.drop_nil] at hpre
      exact hp (List.isPrefixOf_iff_prefix.mpr hpre)
  | cons r rest ih =>
    unfold firstOccurrence at h
    by_cases hp : chunk.isPrefixOf (r :: rest) = true
    · simp [hp] at h
    · simp only [hp, Bool.false_eq_true, if_false] at h
      cases hf : firstOccurrence chunk rest with
      | some k => simp [hf] at h
      | none =>
        intro i
        cases i with
        | zero =>
          simp only [List.drop_zero]
          intro hpre
          exact hp (List.isPrefixOf_iff_prefix.mpr hpre)
        | succ m =>
          simp only [List.drop_succ_cons]
          exact ih hf m

/-- C2. `chunkText` with the method "Token" and a resolved `ChunkOverlap` not less than
the resolved `ChunkSize` fails with the error of the Token method and returns the zero
output, whatever the text. -/
theorem chunkText_token_overlap (sp : Splitters) (input : ChunkTextInput)
    (hm : input.Strategy.Setting.ChunkMethod = "Token")
    (ho : input.Strategy.Setting.SetDefault.ChunkOverlap ≥
      input.Strategy.Setting.SetDefault.ChunkSize) :
    chunkText sp input =
      ({ TextChunks := [], ChunkNum := 0, TokenCount := 0, ChunksTokenCount := 0 },
        some "ChunkOverlap must be less than ChunkSize when using Token method") := by
  have hm2 : input.Strategy.Setting.SetDefault.ChunkMethod = "Token" := hm
  unfold chunkText
  simp only [hm2, if_true, ho]
  rfl

/-- C2, at the input of the test: `ChunkSize` 5, `ChunkOverlap` 5, text "Hello world.". -/
theorem chunkText_token_overlap_witness :
    overlapInput.Strategy.Setting.ChunkMethod = "Token" ∧
    overlapInput.Strategy.Setting.SetDefault.ChunkOverlap ≥
      overlapInput.Strategy.Setting.SetDefault.ChunkSize ∧
    chunkText charSplitters overlapInput =
      ({ TextChunks := [], ChunkNum := 0, TokenCount := 0, ChunksTokenCount := 0 },
        some "ChunkOverlap must be less than ChunkSize when using Token method") :=
  ⟨rfl, by decide, chunkText_token_overlap charSplitters overlapInput rfl (by decide)⟩

/-- C5. On the empty text `chunkMarkdown` succeeds, for every setting whose resolved model
the tokenizer counts the empty text for (as zero tokens), and returns exactly one chunk
with empty text, start 0, end 0 and token count 0, with `ChunkNum` 1, `TokenCount` 0
and `ChunksTokenCount` 0. -/
theorem chunkMarkdown_empty (sp : Splitters) (setting : Setting)
    (hcount : sp.count setting.SetDefault.ModelName (setting.SetDefault.AllowedSpecial.getD [])
      (setting.SetDefault.DisallowedSpecial.getD []) "" = .ok 0) :
    chunkMarkdown sp { Text := "", Strategy := { Setting := setting } } =
      ({ TextChunks := [{ Text := "", StartPosition := 0, EndPosition := 0, TokenCount := 0 }]
         ChunkNum := 1, TokenCount := 0, ChunksTokenCount := 0 }, none) := by
  unfold chunkMarkdown
  simp only [markdownSplit, if_true, assemble, hcount, locateChunks]
  rfl

/-- C5, at the input of the test "empty markdown input". -/
theorem chunkMarkdown_empty_witness :
    charSplitters.count emptyMarkdownInput.Strategy.Setting.SetDefault.ModelName
      (emptyMarkdownInput.Strategy.Setting.SetDefault.AllowedSpecial.getD [])
      (emptyMarkdownInput.Strategy.Setting.SetDefault.DisallowedSpecial.getD []) "" = .ok 0 ∧
    chunkMarkdown charSplitters emptyMarkdownInput =
      ({ TextChunks := [{ Text := "", StartPosition := 0, EndPosition := 0, TokenCount := 0 }]
         ChunkNum := 1, TokenCount := 0, ChunksTokenCount := 0 }, none) :=
  ⟨rfl, chunkMarkdown_empty charSplitters emptyMarkdownInput.Strategy.Setting rfl⟩

/-! ### Recipe conversion -/

/-- C11. `recipeResourceNameToPermalink` rewrites the recipe step by step and does not roll
back: when the source lookup succeeds (and the source name has a collection id) and the
destination lookup fails, the error is "[connector-backend] " followed by the service
error, `Source` is already "<collection id>/<source uid>", and `Destination` and
`ModelInstances` are unchanged; when the first lookup fails the error is formed the
same way and the whole recipe is unchanged; and once both connectors are resolved,
`Source` and `Destination` stay rewritten whatever the loop over the model instances
returns. -/
theorem recipeResourceNameToPermalink_no_rollback (sv : RecipeServices) (recipe : Recipe) :
    (∀ srcUid srcColID err,
      sv.GetSourceConnector recipe.Source = .ok srcUid →
      sv.GetResourceCollectionID recipe.Source = .ok srcColID →
      sv.GetDestinationConnector recipe.Destination = .error err →
      recipeResourceNameToPermalink sv recipe =
        ({ Source := srcColID ++ "/" ++ srcUid, Destination := recipe.Destination,
           ModelInstances := recipe.ModelInstances },
          some ("[connector-backend] " ++ err))) ∧
    (∀ err, sv.GetSourceConnector recipe.Source = .error err →
      recipeResourceNameToPermalink sv recipe =
        (recipe, some ("[connector-backend] " ++ err))) ∧
    (∀ srcUid srcColID dstUid dstColID,
      sv.GetSourceConnector recipe.Source = .ok srcUid →
      sv.GetResourceCollectionID recipe.Source = .ok srcColID →
      sv.GetDestinationConnector recipe.Destination = .ok dstUid →
      sv.GetResourceCollectionID recipe.Destination = .ok dstColID →
      (recipeResourceNameToPermalink sv recipe).1.Source = srcColID ++ "/" ++ srcUid ∧
      (recipeResourceNameToPermalink sv recipe).1.Destination = dstColID ++ "/" ++ dstUid ∧
      (recipeResourceNameToPermalink sv recipe).2 =
        (modelInstancesLoop sv [] recipe.ModelInstances).2) := by
  refine ⟨?_, ?_, ?_⟩
  · intro srcUid srcColID err h1 h2 h3
    simp only [recipeResourceNameToPermalink, h1, h2, h3]
  · intro err h1
    simp only [recipeResourceNameToPermalink, h1]
  · intro srcUid srcColID dstUid dstColID h1 h2 h3 h4
    simp only [recipeResourceNameToPermalink, h1, h2, h3, h4, and_self]

/-- C11, at a recipe whose source connector is found and whose destination connector is
not, and at the same recipe when no connector is found. -/
theorem recipeResourceNameToPermalink_no_rollback_witness :
    recipeResourceNameToPermalink
        (testServices [("source-connectors/s1", "uid-s")] [] [] [])
        { Source := "source-connectors/s1", Destination := "destination-connectors/d1",
          ModelInstances := ["models/m/instances/i"] } =
      ({ Source := "source-connectors/uid-s", Destination := "destination-connectors/d1",
         ModelInstances := ["models/m/instances/i"] },
        some "[connector-backend] destination connector not found") ∧
    recipeResourceNameToPermalink (testServices [] [] [] [])
        { Source := "source-connectors/s1", Destination := "destination-connectors/d1",
          ModelInstances := ["models/m/instances/i"] } =
      ({ Source := "source-connectors/s1", Destination := "destination-connectors/d1",
         ModelInstances := ["models/m/instances/i"] },
        some "[connector-backend] source connector not found") :=
  ⟨((recipeResourceNameToPermalink_no_rollback
      (testServices [("source-connectors/s1", "uid-s")] [] [] [])
      { Source := "source-connectors/s1", Destination := "destination-connectors/d1",
        ModelInstances := ["models/m/instances/i"] }).1
      "uid-s" "source-connectors" "destination connector not found"
      rfl rfl rfl).trans (by decide),
   (recipeResourceNameToPermalink_no_rollback (testServices [] [] [] [])
      { Source := "source-connectors/s1", Destination := "destination-connectors/d1",
        ModelInstances := ["models/m/instances/i"] }).2.1
      "source connector not found" rfl⟩

/-- The loop over the model instances does not roll back either: with the first instance
resolved and the second not found, the first entry is rewritten and the second is not. -/
theorem recipeResourceNameToPermalink_partial_instances :
    recipeResourceNameToPermalink
    (testServices [("source-connectors/s1", "uid-s")] [("destination-connectors/d1", "uid-d")]
      [("models/m/instances/i", "uid-i")] [("models/m", "uid-m")])
    { Source := "source-connectors/s1", Destination := "destination-connectors/d1",
      ModelInstances := ["models/m/instances/i", "models/x/instances/y"] } =
  ({ Source := "source-connectors/uid-s", Destination := "destination-connectors/uid-d",
     ModelInstances := ["models/uid-m/instances/uid-i", "models/x/instances/y"] },
    some "[model-backend] model instance not found") := by decide

end PipelineBackend
